import Mathlib

/-!
Verification model of `src/StateMachinePlus.js` (`kungfuters.StateMachinePlus`),
a phase-transition state machine layered over the Google+ Hangout shared-state
API.

Modelling conventions:
* JavaScript objects used as string-keyed dictionaries (`this.transitions`, the
  shared-state snapshot, the `adds` map of `nextPhase`) are association lists;
  property read/write are `assocGet` / `assocSet`.
* The `this`-bound machine fields become a `StateMachinePlus` structure that is
  threaded explicitly through the methods.
* A thrown JS exception is recorded in the `thrown` field of an `Outcome`.
  The `machine` field of an `Outcome` keeps the field mutations that happened
  before the throw, matching JS semantics: assignments to `this` made before a
  `throw` survive the exception.
* Calls out of the component (invoking a phase handler found on the scope
  object, `gapi.hangout.data.submitDelta`) are recorded in the `calls` and
  `deltas` logs of the `Outcome`; the external reads (`getState`, the listener
  arguments) are passed in as parameters.
* The handler lookup scope (`this.scope`, default `window`) is modelled by the
  list of function names that are defined (truthy) on that object.
* The source lets constructor props override `phaseMethodPrefix`; every claim
  concerns the default `"_phase_"`, so it is the constant `phaseMethodPfx`
  here.
-/

namespace kungfuters

/-- JS object property read `obj[k]`: `none` models `undefined`. -/
def assocGet {α : Type} : List (String × α) → String → Option α
  | [], _ => none
  | p :: rest, k => if p.1 == k then some p.2 else assocGet rest k

/-- JS object property write `obj[k] = v`: replace the binding if present,
else append a fresh one. -/
def assocSet {α : Type} : List (String × α) → String → α → List (String × α)
  | [], k, v => [(k, v)]
  | p :: rest, k, v => if p.1 == k then (k, v) :: rest else p :: assocSet rest k v

/-- `this.transitions`: map from a source phase to the array of phases it may
transition to (`Object.<string, Array.<string>>`). -/
abbrev Table := List (String × List String)

/-- A shared-state snapshot: `Object.<string, string>`. -/
abbrev SharedState := List (String × String)

/-- `kungfuters.StateMachinePlus.prototype.INITIAL_PHASE`. -/
def INITIAL_PHASE : String := "ksmp_initial_phase"

/-- Default `this.phaseMethodPrefix` (`"_phase_"`); see the module comment. -/
def phaseMethodPfx : String := "_phase_"

/-- The machine's mutable/configured fields.  `scope` is the set of function
names defined on `this.scope` (default `window`). -/
structure StateMachinePlus where
  localPhase : String
  scope : List String
  transitions : Table
  phaseKey : String
  deriving DecidableEq

/-- One recorded invocation of a phase handler
(`method.call(this.scope, state, isInitialPhase)`, source line 169):
the phase whose handler ran, the state passed, and the flag. -/
structure HandlerCall where
  phase : String
  state : SharedState
  isInitialPhase : Bool
  deriving DecidableEq

/-- One entry of the `adds` array passed by the Hangout API to the state-change
listener; only `.key` is read by the source. -/
structure AddEntry where
  key : String
  value : String
  deriving DecidableEq

/-- Result of running one method: the machine afterwards, the phase-handler
invocations and `submitDelta(adds, removes)` requests it made (in order), and
the exception it threw, if any. -/
structure Outcome where
  machine : StateMachinePlus
  calls : List HandlerCall
  deltas : List (SharedState × List String)
  thrown : Option String
  deriving DecidableEq

/-- An `Outcome` that did nothing: no handler, no delta, no throw. -/
def noop (m : StateMachinePlus) : Outcome :=
  { machine := m, calls := [], deltas := [], thrown := none }

/-- Source lines 99-104 of `addTransition`: append `tgt` to the array stored
under `src`, creating it when absent (`list.push(to); this.transitions[from] = list`). -/
def addTransitionOnce (t : Table) (src tgt : String) : Table :=
  let list := (assocGet t src).getD []
  assocSet t src (list ++ [tgt])

/-- `addTransition(from, to)` (lines 98-108).  When `from != INITIAL_PHASE`
the source recurses with `addTransition(INITIAL_PHASE, from)`; that inner call
takes the non-recursive path (its `from` is the initial phase), so it is
exactly one more `addTransitionOnce`. -/
def addTransition (t : Table) (src tgt : String) : Table :=
  let t1 := addTransitionOnce t src tgt
  if src == INITIAL_PHASE then t1 else addTransitionOnce t1 INITIAL_PHASE src

/-- A sequence of `addTransition` calls during setup, left to right. -/
def runAdds (t : Table) (l : List (String × String)) : Table :=
  l.foldl (fun acc p => addTransition acc p.1 p.2) t

/-- `_validateTransition(from, to)` (lines 205-212).  The source reads
`this.transitions[from].length` without guarding against `undefined`: when
`from` has no entry the method throws a TypeError, modelled as `Except.error`.
Otherwise the loop scans the array for `to`. -/
def _validateTransition (t : Table) (src tgt : String) : Except String Bool :=
  match assocGet t src with
  | none => Except.error "TypeError: this.transitions[from] is undefined"
  | some validTransitions => Except.ok (validTransitions.any (fun x => x == tgt))

/-- Total membership check, stated from the spec's words for
`isValidTransition`: whether `tgt` appears in the sequence registered for
`src`, `false` when `src` has no registered sequence.  Used to compare against
`_validateTransition` and as a convenient hypothesis language. -/
def registeredStep (t : Table) (src tgt : String) : Bool :=
  match assocGet t src with
  | none => false
  | some l => l.contains tgt

/-- Lines 184-186 of `onStateChange`: if `state.phase` is `undefined`, falsy
or `""`, overwrite it with the initial sentinel (the JS falsy test on a string
is exactly the empty-string test). -/
def normPhase (state : SharedState) : SharedState :=
  match assocGet state "phase" with
  | none => assocSet state "phase" INITIAL_PHASE
  | some s => if s = "" then assocSet state "phase" INITIAL_PHASE else state

/-- `_nextLocalPhase(state, isInitialPhase)` (lines 162-170): set
`this.localPhase = state.phase`, then resolve `this.scope[prefix + state.phase]`
and either invoke it or throw.  Every call site of the source guarantees
`state.phase` is a defined string, so the `getD ""` default is never exercised;
note the `localPhase` assignment happens before the possible throw. -/
def _nextLocalPhase (m : StateMachinePlus) (state : SharedState)
    (isInitialPhase : Bool) : Outcome :=
  let ph := (assocGet state "phase").getD ""
  let m' := { m with localPhase := ph }
  let methodName := phaseMethodPfx ++ ph
  if m.scope.contains methodName then
    { machine := m', calls := [⟨ph, state, isInitialPhase⟩], deltas := [],
      thrown := none }
  else
    { machine := m', calls := [], deltas := [],
      thrown := some ("Undefined phase function: " ++ methodName) }

/-- `onStateChange(adds, removes, state, metaData)` (lines 180-194).  The loop
scans `adds` for the first entry whose `key` equals `this.phaseKey` and breaks
after processing it; `removes` and `metaData` are unread.  On a hit: normalize
`state.phase`, validate the transition from the current local phase, and when
valid advance locally; a `false` validation drops the notification. -/
def onStateChange (m : StateMachinePlus) (adds : List AddEntry)
    (state : SharedState) : Outcome :=
  match adds.find? (fun a => a.key == m.phaseKey) with
  | none => noop m
  | some _ =>
    let state' := normPhase state
    match _validateTransition m.transitions m.localPhase
        ((assocGet state' "phase").getD "") with
    | Except.error e => { machine := m, calls := [], deltas := [], thrown := some e }
    | Except.ok true =>
      let isInitialPhase := m.localPhase == INITIAL_PHASE
      _nextLocalPhase m state' isInitialPhase
    | Except.ok false => noop m

/-- `nextPhase(phase, adds, removes)` (lines 146-155): default the `adds` map
and `removes` list, set `adds.phase = phase`, and submit the delta.  The §4.2
spec name for this operation is `advancePhase`. -/
def nextPhase (m : StateMachinePlus) (phase : String) (adds : SharedState)
    (removes : List String) : Outcome :=
  let adds' := assocSet adds "phase" phase
  { machine := m, calls := [], deltas := [(adds', removes)], thrown := none }

/-- `begin(firstPhase)` (lines 126-137).  `none` models an omitted argument
(`typeof firstPhase == "undefined"`); `state` is the snapshot returned by
`gapi.hangout.data.getState()`.  `inProgress` is the JS truthiness of
`state.phase && this.INITIAL_PHASE != state.phase`. -/
def begin (m : StateMachinePlus) (firstPhase : Option String)
    (state : SharedState) : Outcome :=
  match firstPhase with
  | none =>
    { machine := m, calls := [], deltas := [],
      thrown := some "Must pass a firstPhase to StateMachinePlus.begin(firstPhase)" }
  | some fp =>
    let inProgress :=
      match assocGet state "phase" with
      | none => false
      | some s => s != "" && INITIAL_PHASE != s
    if inProgress then _nextLocalPhase m state true
    else nextPhase m fp [] []

end kungfuters

namespace kungfuters

/-- `assocSet` followed by `assocGet` at the same key yields the new value. -/
theorem assocGet_assocSet_self {α : Type} (l : List (String × α)) (k : String) (v : α) :
    assocGet (assocSet l k v) k = some v := by
  induction l with
  | nil => simp [assocGet, assocSet]
  | cons p rest ih =>
    cases hp : (p.1 == k) with
    | true => simp [assocSet, hp, assocGet]
    | false => simp [assocSet, hp, assocGet, ih]

/-- `assocSet` leaves other keys unchanged. -/
theorem assocGet_assocSet_ne {α : Type} (l : List (String × α)) {k k' : String} (v : α)
    (h : k' ≠ k) : assocGet (assocSet l k v) k' = assocGet l k' := by
  induction l with
  | nil => simp [assocGet, assocSet, beq_iff_eq, Ne.symm h]
  | cons p rest ih =>
    cases hp : (p.1 == k) with
    | true =>
      have hpk : p.1 = k := by simpa using hp
      simp [assocSet, hp, assocGet, beq_iff_eq, Ne.symm h, hpk]
    | false => simp [assocSet, hp, assocGet, ih]

/-- Equation lemma: `registeredStep` at an absent source. -/
theorem registeredStep_of_get_none {t : Table} {a : String} (b : String)
    (hg : assocGet t a = none) : registeredStep t a b = false := by
  unfold registeredStep
  rw [hg]

/-- Equation lemma: `registeredStep` at a present source. -/
theorem registeredStep_of_get_some {t : Table} {a : String} {l : List String} (b : String)
    (hg : assocGet t a = some l) : registeredStep t a b = l.contains b := by
  unfold registeredStep
  rw [hg]

/-- Equation lemma: the validator throws when the source phase is absent. -/
theorem validate_of_get_none {t : Table} {a : String} (b : String)
    (hg : assocGet t a = none) :
    _validateTransition t a b
      = Except.error "TypeError: this.transitions[from] is undefined" := by
  unfold _validateTransition
  rw [hg]

/-- Equation lemma: the validator scans the stored array when the source is
present. -/
theorem validate_of_get_some {t : Table} {a : String} {l : List String} (b : String)
    (hg : assocGet t a = some l) :
    _validateTransition t a b = Except.ok (l.any (fun x => x == b)) := by
  unfold _validateTransition
  rw [hg]

/-- `l.contains b` agrees with the validator's scan `l.any (· == b)`. -/
theorem contains_eq_scan (l : List String) (b : String) :
    l.contains b = l.any (fun x => x == b) := by
  rw [List.contains_eq_any_beq]
  have hfun : (fun y => b == y) = (fun y : String => y == b) :=
    funext fun y => Bool.beq_comm
  rw [hfun]

/-- Membership in a list survives appending on the right. -/
theorem contains_append_of_contains {l l2 : List String} {b : String}
    (h : l.contains b = true) : (l ++ l2).contains b = true := by
  rw [List.contains_eq_any_beq] at h ⊢
  rw [List.any_eq_true] at h ⊢
  obtain ⟨x, hx, hbx⟩ := h
  exact ⟨x, List.mem_append_left _ hx, hbx⟩

/-- `addTransitionOnce` registers the pair it was given. -/
theorem registeredStep_addTransitionOnce_self (t : Table) (src tgt : String) :
    registeredStep (addTransitionOnce t src tgt) src tgt = true := by
  simp only [addTransitionOnce]
  rw [registeredStep_of_get_some tgt (assocGet_assocSet_self ..)]
  rw [List.contains_eq_any_beq, List.any_eq_true]
  exact ⟨tgt, List.mem_append_right _ (List.mem_singleton_self tgt), by simp⟩

/-- `addTransitionOnce` keeps every previously registered pair. -/
theorem registeredStep_addTransitionOnce_mono (t : Table) (src tgt a b : String)
    (h : registeredStep t a b = true) :
    registeredStep (addTransitionOnce t src tgt) a b = true := by
  simp only [addTransitionOnce]
  by_cases ha : a = src
  · subst ha
    rw [registeredStep_of_get_some b (assocGet_assocSet_self ..)]
    cases hg : assocGet t a with
    | none => rw [registeredStep_of_get_none b hg] at h; cases h
    | some l =>
      rw [registeredStep_of_get_some b hg] at h
      rw [Option.getD_some]
      exact @contains_append_of_contains l [tgt] b h
  · unfold registeredStep
    rw [assocGet_assocSet_ne _ _ ha]
    unfold registeredStep at h
    exact h

/-- Equation lemma: `addTransition` from the initial phase is a single insert. -/
theorem addTransition_init_eq (t : Table) (src tgt : String)
    (hs : (src == INITIAL_PHASE) = true) :
    addTransition t src tgt = addTransitionOnce t src tgt := by
  unfold addTransition
  rw [hs]
  rfl

/-- Equation lemma: `addTransition` from a non-initial phase performs the
insert and then the closure insert under the initial phase. -/
theorem addTransition_noninit_eq (t : Table) (src tgt : String)
    (hs : (src == INITIAL_PHASE) = false) :
    addTransition t src tgt
      = addTransitionOnce (addTransitionOnce t src tgt) INITIAL_PHASE src := by
  unfold addTransition
  rw [hs]
  rfl

/-- `addTransition` keeps every previously registered pair. -/
theorem registeredStep_addTransition_mono (t : Table) (src tgt a b : String)
    (h : registeredStep t a b = true) :
    registeredStep (addTransition t src tgt) a b = true := by
  cases hs : (src == INITIAL_PHASE) with
  | true =>
    rw [addTransition_init_eq t src tgt hs]
    exact registeredStep_addTransitionOnce_mono t src tgt a b h
  | false =>
    rw [addTransition_noninit_eq t src tgt hs]
    exact registeredStep_addTransitionOnce_mono _ _ _ _ _
      (registeredStep_addTransitionOnce_mono t src tgt a b h)

/-- When `src` is not the initial phase, `addTransition src tgt` also
registers `(INITIAL_PHASE, src)` (the closure step of source lines 105-107). -/
theorem registeredStep_addTransition_init (t : Table) (src tgt : String)
    (h : src ≠ INITIAL_PHASE) :
    registeredStep (addTransition t src tgt) INITIAL_PHASE src = true := by
  rw [addTransition_noninit_eq t src tgt (beq_eq_false_iff_ne.mpr h)]
  exact registeredStep_addTransitionOnce_self _ _ _

/-- Unfolding of one setup step. -/
theorem runAdds_cons (t : Table) (p : String × String) (l : List (String × String)) :
    runAdds t (p :: l) = runAdds (addTransition t p.1 p.2) l := rfl

/-- A whole setup sequence keeps every previously registered pair. -/
theorem registeredStep_runAdds_mono (l : List (String × String)) (t : Table) (a b : String)
    (h : registeredStep t a b = true) :
    registeredStep (runAdds t l) a b = true := by
  induction l generalizing t with
  | nil => exact h
  | cons p rest ih => exact ih _ (registeredStep_addTransition_mono _ _ _ _ _ h)

/-- Closure invariant over any setup sequence, from any starting table. -/
theorem registeredStep_runAdds_closure (l : List (String × String)) :
    ∀ (t : Table) (src tgt : String), (src, tgt) ∈ l → src ≠ INITIAL_PHASE →
      registeredStep (runAdds t l) INITIAL_PHASE src = true := by
  induction l with
  | nil =>
    intro t src tgt hmem _
    cases hmem
  | cons p rest ih =>
    intro t src tgt hmem hsrc
    rcases List.mem_cons.mp hmem with heq | hmem2
    · rw [runAdds_cons, ← heq]
      exact registeredStep_runAdds_mono _ _ _ _
        (registeredStep_addTransition_init t src tgt hsrc)
    · rw [runAdds_cons]
      exact ih _ _ _ hmem2 hsrc

/-- A registered pair makes the real validator answer `Except.ok true`. -/
theorem validate_ok_of_registeredStep (t : Table) (a b : String)
    (h : registeredStep t a b = true) :
    _validateTransition t a b = Except.ok true := by
  cases hg : assocGet t a with
  | none => rw [registeredStep_of_get_none b hg] at h; cases h
  | some l =>
    rw [registeredStep_of_get_some b hg] at h
    rw [validate_of_get_some b hg, ← contains_eq_scan, h]

/-- An unregistered pair makes the real validator either throw (no entry for
the source phase) or answer `Except.ok false`. -/
theorem validate_drops_of_not_registeredStep (t : Table) (a b : String)
    (h : registeredStep t a b = false) :
    _validateTransition t a b
        = Except.error "TypeError: this.transitions[from] is undefined" ∨
    _validateTransition t a b = Except.ok false := by
  cases hg : assocGet t a with
  | none => exact Or.inl (validate_of_get_none b hg)
  | some l =>
    rw [registeredStep_of_get_some b hg] at h
    right
    rw [validate_of_get_some b hg, ← contains_eq_scan, h]


/-- Reduction of `onStateChange` when some changed key equals the phase key. -/
theorem onStateChange_of_found (m : StateMachinePlus) (adds : List AddEntry)
    (state : SharedState) (e : AddEntry)
    (hf : adds.find? (fun a => a.key == m.phaseKey) = some e) :
    onStateChange m adds state
      = match _validateTransition m.transitions m.localPhase
            ((assocGet (normPhase state) "phase").getD "") with
        | Except.error err =>
            { machine := m, calls := [], deltas := [], thrown := some err }
        | Except.ok true =>
            _nextLocalPhase m (normPhase state) (m.localPhase == INITIAL_PHASE)
        | Except.ok false => noop m := by
  unfold onStateChange
  rw [hf]

/-- Reduction of `onStateChange` when no changed key equals the phase key. -/
theorem onStateChange_of_not_found (m : StateMachinePlus) (adds : List AddEntry)
    (state : SharedState)
    (hf : adds.find? (fun a => a.key == m.phaseKey) = none) :
    onStateChange m adds state = noop m := by
  unfold onStateChange
  rw [hf]

/-- When the claimed transition is not registered from the current local
phase, `onStateChange` mutates nothing and calls nothing (it either drops the
notification or throws out of the validator). -/
theorem onStateChange_noaction_of_not_registered (m : StateMachinePlus)
    (adds : List AddEntry) (state : SharedState)
    (h : registeredStep m.transitions m.localPhase
        ((assocGet (normPhase state) "phase").getD "") = false) :
    (onStateChange m adds state).machine = m ∧
    (onStateChange m adds state).calls = [] ∧
    (onStateChange m adds state).deltas = [] := by
  cases hf : adds.find? (fun a => a.key == m.phaseKey) with
  | none =>
    rw [onStateChange_of_not_found m adds state hf]
    exact ⟨rfl, rfl, rfl⟩
  | some e =>
    rw [onStateChange_of_found m adds state e hf]
    rcases validate_drops_of_not_registeredStep _ _ _ h with hv | hv <;>
      rw [hv] <;> exact ⟨rfl, rfl, rfl⟩

/-- Reduction of `_nextLocalPhase` when the handler is present on the scope. -/
theorem nextLocal_found (m : StateMachinePlus) (state : SharedState) (flag : Bool)
    {ph : String} (hst : assocGet state "phase" = some ph)
    (hsc : m.scope.contains (phaseMethodPfx ++ ph) = true) :
    _nextLocalPhase m state flag
      = { machine := { m with localPhase := ph },
          calls := [⟨ph, state, flag⟩], deltas := [], thrown := none } := by
  simp only [_nextLocalPhase, hst, Option.getD_some, hsc]
  simp

/-- Reduction of `_nextLocalPhase` when the handler is missing: the tracker
is still set first, then the throw happens. -/
theorem nextLocal_missing (m : StateMachinePlus) (state : SharedState) (flag : Bool)
    {ph : String} (hst : assocGet state "phase" = some ph)
    (hsc : m.scope.contains (phaseMethodPfx ++ ph) = false) :
    _nextLocalPhase m state flag
      = { machine := { m with localPhase := ph }, calls := [], deltas := [],
          thrown := some ("Undefined phase function: " ++ (phaseMethodPfx ++ ph)) } := by
  simp only [_nextLocalPhase, hst, Option.getD_some, hsc]
  simp

/-- Reduction of `begin` when the shared state reports a real phase. -/
theorem begin_inProgress (m : StateMachinePlus) (fp : String) (state : SharedState)
    {Y : String} (hst : assocGet state "phase" = some Y) (hYne : Y ≠ "")
    (hYinit : Y ≠ INITIAL_PHASE) :
    begin m (some fp) state = _nextLocalPhase m state true := by
  have hin : (Y != "" && (INITIAL_PHASE != Y)) = true := by
    rw [Bool.and_eq_true, bne_iff_ne, bne_iff_ne]
    exact ⟨hYne, Ne.symm hYinit⟩
  simp only [begin, hst, hin]
  simp

/-- Reduction of `begin` when the shared state reports no phase, an empty
phase, or the initial sentinel. -/
theorem begin_fresh (m : StateMachinePlus) (fp : String) (state : SharedState)
    (hst : assocGet state "phase" = none ∨ assocGet state "phase" = some ""
      ∨ assocGet state "phase" = some INITIAL_PHASE) :
    begin m (some fp) state = nextPhase m fp [] [] := by
  rcases hst with h | h | h <;> simp [begin, h]


/-- Claim C1: with the tracker at `P` and `(P, Q)` registered, delivering the
"phase changed to `Q`" notification twice invokes the phase-`Q` handler
exactly once (on the first delivery) and not at all on the second delivery,
provided `(Q, Q)` is not registered; after both deliveries the tracker is at
`Q`. -/
theorem smp_idempotent_delivery (m : StateMachinePlus) (P Q : String)
    (adds : List AddEntry) (state : SharedState)
    (hP : m.localPhase = P)
    (hPQ : registeredStep m.transitions P Q = true)
    (hQQ : registeredStep m.transitions Q Q = false)
    (hscope : m.scope.contains (phaseMethodPfx ++ Q) = true)
    (hkey : (adds.find? (fun a => a.key == m.phaseKey)).isSome = true)
    (hst : assocGet state "phase" = some Q) (hQne : Q ≠ "") :
    (onStateChange m adds state).calls.map HandlerCall.phase = [Q] ∧
    (onStateChange (onStateChange m adds state).machine adds state).calls = [] ∧
    (onStateChange (onStateChange m adds state).machine adds state).machine.localPhase
      = Q := by
  obtain ⟨e, hf⟩ := Option.isSome_iff_exists.mp hkey
  have hnorm : normPhase state = state := by
    simp only [normPhase, hst]
    rw [if_neg hQne]
  have hget : (assocGet (normPhase state) "phase").getD "" = Q := by
    rw [hnorm, hst]
    rfl
  have hv1 : _validateTransition m.transitions m.localPhase
      ((assocGet (normPhase state) "phase").getD "") = Except.ok true := by
    rw [hget, hP]
    exact validate_ok_of_registeredStep _ _ _ hPQ
  have h1 : onStateChange m adds state
      = { machine := { m with localPhase := Q },
          calls := [⟨Q, state, m.localPhase == INITIAL_PHASE⟩],
          deltas := [], thrown := none } := by
    rw [onStateChange_of_found m adds state e hf]
    simp only [hv1]
    rw [hnorm, nextLocal_found m state _ hst hscope]
  have h2 := onStateChange_noaction_of_not_registered
      { m with localPhase := Q } adds state (by rw [hget]; exact hQQ)
  refine ⟨?_, ?_, ?_⟩
  · rw [h1]
    rfl
  · rw [h1]
    exact h2.2.1
  · rw [h1, h2.1]

/-- Claim C2 (refuted as stated, code bug): with no sequence registered for
the source phase, the validator does not return `false` — the source reads
`this.transitions[from].length` on `undefined` and throws a TypeError —
whereas the spec-modelled total check `registeredStep` returns `false`. -/
theorem smp_validate_missing_source_throws :
    _validateTransition [] "a" "b"
        = Except.error "TypeError: this.transitions[from] is undefined" ∧
    registeredStep [] "a" "b" = false :=
  ⟨rfl, rfl⟩

/-- Claim C3 (refuted as stated, code bug): tracker at `"q"` reached via the
registered `("p", "q")`; a stale notification claiming `"p"` does leave the
tracker at `"q"` with no handler invoked, but it is not dropped silently:
`"q"` has no registered outgoing sequence, so the validator throws and the
exception propagates out of `onStateChange`. -/
theorem smp_stale_claim_throws :
    onStateChange
        { localPhase := "q", scope := ["_phase_p", "_phase_q"],
          transitions := runAdds [] [("p", "q")], phaseKey := "phase" }
        [⟨"phase", "p"⟩] [("phase", "p")]
      = { machine :=
            { localPhase := "q", scope := ["_phase_p", "_phase_q"],
              transitions := runAdds [] [("p", "q")], phaseKey := "phase" },
          calls := [], deltas := [],
          thrown := some "TypeError: this.transitions[from] is undefined" } :=
  rfl

/-- Claim C4: after any setup sequence of `addTransition` calls, every
registered source phase other than the initial phase is a valid direct
transition target from the initial phase. -/
theorem smp_transition_closure (l : List (String × String)) (src tgt : String)
    (hmem : (src, tgt) ∈ l) (hsrc : src ≠ INITIAL_PHASE) :
    _validateTransition (runAdds [] l) INITIAL_PHASE src = Except.ok true :=
  validate_ok_of_registeredStep _ _ _
    (registeredStep_runAdds_closure l [] src tgt hmem hsrc)

/-- Claim C5: `begin X` with the shared state already at a real phase `Y`
fast-forwards: tracker set to `Y`, phase-`Y` handler invoked once with
`isFirstActivation = true`, and no shared-state write. -/
theorem smp_fast_forward (m : StateMachinePlus) (X Y : String) (state : SharedState)
    (hst : assocGet state "phase" = some Y) (hYne : Y ≠ "")
    (hYinit : Y ≠ INITIAL_PHASE)
    (hscope : m.scope.contains (phaseMethodPfx ++ Y) = true) :
    begin m (some X) state
      = { machine := { m with localPhase := Y },
          calls := [⟨Y, state, true⟩], deltas := [], thrown := none } := by
  rw [begin_inProgress m X state hst hYne hYinit,
    nextLocal_found m state true hst hscope]

/-- Claim C6: `begin X` on a fresh session (no phase, empty phase, or the
initial sentinel) submits the delta `{phase: X}` and neither invokes a
handler nor touches the local tracker. -/
theorem smp_fresh_start (m : StateMachinePlus) (X : String) (state : SharedState)
    (hst : assocGet state "phase" = none ∨ assocGet state "phase" = some ""
      ∨ assocGet state "phase" = some INITIAL_PHASE) :
    begin m (some X) state
      = { machine := m, calls := [],
          deltas := [([("phase", X)], [])], thrown := none } := by
  rw [begin_fresh m X state hst]
  rfl

/-- Claim C7: `nextPhase` (the spec calls it `advancePhase`) only merges the
phase into the adds and submits one delta: the tracker is unchanged, no
handler runs, nothing is thrown. -/
theorem smp_advancePhase_frame (m : StateMachinePlus) (phase : String)
    (adds : SharedState) (removes : List String) :
    (nextPhase m phase adds removes).machine = m ∧
    (nextPhase m phase adds removes).calls = [] ∧
    (nextPhase m phase adds removes).thrown = none ∧
    (nextPhase m phase adds removes).deltas
      = [(assocSet adds "phase" phase, removes)] :=
  ⟨rfl, rfl, rfl, rfl⟩

/-- Claim C8: a notification none of whose changed keys is the phase key is a
complete no-op: no validation, no handler, no mutation, no throw. -/
theorem smp_irrelevant_keys_noop (m : StateMachinePlus) (adds : List AddEntry)
    (state : SharedState) (h : ∀ a ∈ adds, a.key ≠ m.phaseKey) :
    onStateChange m adds state = noop m := by
  apply onStateChange_of_not_found
  rw [List.find?_eq_none]
  intro x hx
  simpa using h x hx

/-- Claim C9: a validated advance to a phase with no resolvable handler
throws synchronously ("Undefined phase function: ..."), and `begin` with the
`firstPhase` argument omitted throws synchronously as well. -/
theorem smp_missing_handler_raises (m : StateMachinePlus) (state : SharedState)
    (flag : Bool) (ph : String)
    (hst : assocGet state "phase" = some ph)
    (hscope : m.scope.contains (phaseMethodPfx ++ ph) = false) :
    (_nextLocalPhase m state flag).thrown
        = some ("Undefined phase function: " ++ (phaseMethodPfx ++ ph)) ∧
    (_nextLocalPhase m state flag).calls = [] ∧
    (begin m none state).thrown
        = some "Must pass a firstPhase to StateMachinePlus.begin(firstPhase)" := by
  rw [nextLocal_missing m state flag hst hscope]
  exact ⟨rfl, rfl, rfl⟩

/-- Claim C10: when the handler lookup fails, the tracker has already been
set to the candidate phase before the throw — the advance is not atomic on
error, and the handler never ran. -/
theorem smp_tracker_set_before_raise (m : StateMachinePlus) (state : SharedState)
    (flag : Bool) (ph : String)
    (hst : assocGet state "phase" = some ph)
    (hscope : m.scope.contains (phaseMethodPfx ++ ph) = false) :
    (_nextLocalPhase m state flag).machine.localPhase = ph ∧
    (_nextLocalPhase m state flag).thrown.isSome = true ∧
    (_nextLocalPhase m state flag).calls = [] := by
  rw [nextLocal_missing m state flag hst hscope]
  exact ⟨rfl, rfl, rfl⟩


/-- Concrete run of the idempotent-delivery theorem: table with `p`→`q`,
tracker at `"p"`, the notification `{phase: "q"}` delivered twice. -/
theorem smp_idempotent_delivery_witness :
    (onStateChange
        { localPhase := "p", scope := ["_phase_q"],
          transitions := runAdds [] [("p", "q")], phaseKey := "phase" }
        [⟨"phase", "q"⟩] [("phase", "q")]).calls.map HandlerCall.phase = ["q"] ∧
    (onStateChange
        (onStateChange
            { localPhase := "p", scope := ["_phase_q"],
              transitions := runAdds [] [("p", "q")], phaseKey := "phase" }
            [⟨"phase", "q"⟩] [("phase", "q")]).machine
        [⟨"phase", "q"⟩] [("phase", "q")]).calls = [] ∧
    (onStateChange
        (onStateChange
            { localPhase := "p", scope := ["_phase_q"],
              transitions := runAdds [] [("p", "q")], phaseKey := "phase" }
            [⟨"phase", "q"⟩] [("phase", "q")]).machine
        [⟨"phase", "q"⟩] [("phase", "q")]).machine.localPhase = "q" :=
  smp_idempotent_delivery _ "p" "q" _ _ (by decide) (by decide) (by decide)
    (by decide) (by decide) (by decide) (by decide)

/-- Concrete run of the transition-closure theorem for the single
registration `("a", "b")`. -/
theorem smp_transition_closure_witness :
    ("a", "b") ∈ [("a", "b")] ∧ "a" ≠ INITIAL_PHASE ∧
    _validateTransition (runAdds [] [("a", "b")]) INITIAL_PHASE "a"
      = Except.ok true :=
  ⟨by decide, by decide,
    smp_transition_closure [("a", "b")] "a" "b" (by decide) (by decide)⟩

/-- Concrete run of the fast-forward theorem: joining while the group is at
`"y"`. -/
theorem smp_fast_forward_witness :
    begin
        { localPhase := INITIAL_PHASE, scope := ["_phase_y"],
          transitions := [], phaseKey := "phase" }
        (some "x") [("phase", "y")]
      = { machine :=
            { localPhase := "y", scope := ["_phase_y"],
              transitions := [], phaseKey := "phase" },
          calls := [⟨"y", [("phase", "y")], true⟩], deltas := [],
          thrown := none } :=
  smp_fast_forward _ "x" "y" _ (by decide) (by decide) (by decide) (by decide)

/-- Concrete run of the fresh-start theorem on an empty shared state. -/
theorem smp_fresh_start_witness :
    begin
        { localPhase := INITIAL_PHASE, scope := [],
          transitions := [], phaseKey := "phase" }
        (some "x") []
      = { machine :=
            { localPhase := INITIAL_PHASE, scope := [],
              transitions := [], phaseKey := "phase" },
          calls := [], deltas := [([("phase", "x")], [])], thrown := none } :=
  smp_fresh_start _ "x" [] (Or.inl rfl)

/-- Concrete run of the irrelevant-key theorem: only `"score"` changed. -/
theorem smp_irrelevant_keys_noop_witness :
    onStateChange
        { localPhase := INITIAL_PHASE, scope := [],
          transitions := [], phaseKey := "phase" }
        [⟨"score", "42"⟩] [("phase", "x")]
      = noop
          { localPhase := INITIAL_PHASE, scope := [],
            transitions := [], phaseKey := "phase" } :=
  smp_irrelevant_keys_noop _ _ _ (by decide)

/-- Concrete run of the missing-handler theorem: empty scope, phase `"x"`. -/
theorem smp_missing_handler_raises_witness :
    (_nextLocalPhase
        { localPhase := INITIAL_PHASE, scope := [],
          transitions := [], phaseKey := "phase" }
        [("phase", "x")] false).thrown
        = some ("Undefined phase function: " ++ (phaseMethodPfx ++ "x")) ∧
    (_nextLocalPhase
        { localPhase := INITIAL_PHASE, scope := [],
          transitions := [], phaseKey := "phase" }
        [("phase", "x")] false).calls = [] ∧
    (begin
        { localPhase := INITIAL_PHASE, scope := [],
          transitions := [], phaseKey := "phase" }
        none [("phase", "x")]).thrown
        = some "Must pass a firstPhase to StateMachinePlus.begin(firstPhase)" :=
  smp_missing_handler_raises _ _ false "x" (by decide) (by decide)

/-- Concrete run of the non-atomic-advance theorem: scope has a handler for
`"lobby"` only, so advancing to `"play"` throws after setting the tracker. -/
theorem smp_tracker_set_before_raise_witness :
    (_nextLocalPhase
        { localPhase := "lobby", scope := ["_phase_lobby"],
          transitions := [], phaseKey := "phase" }
        [("phase", "play")] true).machine.localPhase = "play" ∧
    (_nextLocalPhase
        { localPhase := "lobby", scope := ["_phase_lobby"],
          transitions := [], phaseKey := "phase" }
        [("phase", "play")] true).thrown.isSome = true ∧
    (_nextLocalPhase
        { localPhase := "lobby", scope := ["_phase_lobby"],
          transitions := [], phaseKey := "phase" }
        [("phase", "play")] true).calls = [] :=
  smp_tracker_set_before_raise _ _ true "play" (by decide) (by decide)

end kungfuters
